import Mathlib

/-
Verification of the partial predicate evaluation engine
(lib/auth/predicate/partial/solver.go and the DPLL sketch in the same
package) against its natural-language specification.

The Go code is shallowly embedded: the Z3 values built by the lowering
pipeline become an inductive term language `Z3Value` with an evaluation
semantics, the Z3 backend (`solver.Check` / `solver.Model`) is abstracted
as an `Oracle` whose satisfiable answers come with the model they found,
and Go interface type assertions (which panic on mismatch) and nil-pointer
dereferences are modelled as distinguished outcomes.
-/

namespace Predicate

/-- A Go scalar value as handed around by the engine: the `any` values a
`Resolver` may return, and the concrete values read back from a Z3 model. -/
inductive GoVal where
  | int (n : Int)
  | bool (b : Bool)
  | str (s : String)
deriving DecidableEq

/-- The Z3 sort kinds that the engine constructs (`z3.KindInt`,
`z3.KindBool`, `z3.KindString`). -/
inductive Kind where
  | int
  | bool
  | str
deriving DecidableEq

/-- The Z3 sort kind of a Go scalar value. -/
def GoVal.kind : GoVal → Kind
  | .int _ => .int
  | .bool _ => .bool
  | .str _ => .str

/-- The Z3 ASTs (`z3.Value`) that solver.go builds: literal constants
(`FromInt`, `FromBool`, `FromString`), free constants (`Const`), and the
operator nodes produced by the lowering pipeline and the blocking
constraints (`Distinct`). -/
inductive Z3Value where
  | intLit (n : Int)
  | boolLit (b : Bool)
  | strLit (s : String)
  | const (name : String) (sort : Kind)
  | eq (x y : Z3Value)
  | lt (x y : Z3Value)
  | le (x y : Z3Value)
  | gt (x y : Z3Value)
  | ge (x y : Z3Value)
  | and (x y : Z3Value)
  | or (x y : Z3Value)
  | not (x : Z3Value)
  | distinct (x y : Z3Value)
deriving DecidableEq

/-- The sort of a Z3 AST. A Go type assertion such as `x.(z3.Int)`
succeeds exactly when the value's sort kind is the asserted one. -/
def Z3Value.sortOf : Z3Value → Kind
  | .intLit _ => .int
  | .boolLit _ => .bool
  | .strLit _ => .str
  | .const _ s => s
  | .eq _ _ => .bool
  | .lt _ _ => .bool
  | .le _ _ => .bool
  | .gt _ _ => .bool
  | .ge _ _ => .bool
  | .and _ _ => .bool
  | .or _ _ => .bool
  | .not _ => .bool
  | .distinct _ _ => .bool

/-- An assignment of scalar values to constant names: the content of a Z3
model. -/
def Assign := String → GoVal

/-- Evaluation of a Z3 AST under an assignment. `none` marks a term that
is not well-sorted under the assignment; the terms the engine asserts are
well-sorted, and Z3 would refuse to build an ill-sorted one. -/
def Z3Value.eval (σ : Assign) : Z3Value → Option GoVal
  | .intLit n => some (.int n)
  | .boolLit b => some (.bool b)
  | .strLit s => some (.str s)
  | .const name sort => if (σ name).kind = sort then some (σ name) else none
  | .eq x y =>
      match x.eval σ, y.eval σ with
      | some a, some b => some (.bool (decide (a = b)))
      | _, _ => none
  | .lt x y =>
      match x.eval σ, y.eval σ with
      | some (.int i), some (.int j) => some (.bool (decide (i < j)))
      | _, _ => none
  | .le x y =>
      match x.eval σ, y.eval σ with
      | some (.int i), some (.int j) => some (.bool (decide (i ≤ j)))
      | _, _ => none
  | .gt x y =>
      match x.eval σ, y.eval σ with
      | some (.int i), some (.int j) => some (.bool (decide (j < i)))
      | _, _ => none
  | .ge x y =>
      match x.eval σ, y.eval σ with
      | some (.int i), some (.int j) => some (.bool (decide (j ≤ i)))
      | _, _ => none
  | .and x y =>
      match x.eval σ, y.eval σ with
      | some (.bool a), some (.bool b) => some (.bool (a && b))
      | _, _ => none
  | .or x y =>
      match x.eval σ, y.eval σ with
      | some (.bool a), some (.bool b) => some (.bool (a || b))
      | _, _ => none
  | .not x =>
      match x.eval σ with
      | some (.bool a) => some (.bool (!a))
      | _ => none
  | .distinct x y =>
      match x.eval σ, y.eval σ with
      | some a, some b => some (.bool (!decide (a = b)))
      | _, _ => none

/-- The default value of each sort, used to model Z3 model completion. -/
def defaultOfKind : Kind → GoVal
  | .int => .int 0
  | .bool => .bool false
  | .str => .str ""

/-- `model.Eval(val, true)`: evaluation with model completion, which always
yields a value of the term's sort. -/
def modelEval (σ : Assign) (v : Z3Value) : GoVal :=
  (v.eval σ).getD (defaultOfKind v.sortOf)

/-- The constant Z3 AST denoting a concrete scalar value: the shape of
what `model.Eval` hands back. -/
def litOf : GoVal → Z3Value
  | .int n => .intLit n
  | .bool b => .boolLit b
  | .str s => .strLit s

/-- A resolver maps an identifier path to a known value, or `none` for
"unknown" (Go: returning nil). -/
def Resolver := List String → Option GoVal

/-- The `Type` constants of solver.go (a Go `int`). -/
def TypeInt : Int := 0

/-- `TypeBool` of solver.go. -/
def TypeBool : Int := 1

/-- `TypeString` of solver.go. -/
def TypeString : Int := 2

/-- The error values the engine produces. `castPanic` models a failed Go
interface type assertion (a panic, which still unwinds through deferred
calls), `checkFailed` models `solver.Check` returning an error, e.g. after
an interrupt. -/
inductive SolveErr where
  | parseError (msg : String)
  | badParameter (msg : String)
  | notImplemented (msg : String)
  | notFound (msg : String)
  | castPanic
  | checkFailed
deriving DecidableEq

/-- The binary operator tokens distinguished by `lowerBinary`; `otherOp`
stands for every other `token.Token`. -/
inductive BinOp where
  | eql
  | lss
  | leq
  | gtr
  | geq
  | land
  | lor
  | otherOp (t : String)
deriving DecidableEq

/-- The unary operator tokens distinguished by `lowerUnary`. -/
inductive UnOp where
  | not
  | otherOp (t : String)
deriving DecidableEq

/-- An `ast.BasicLit`: for `token.INT` the decimal text already converted
(`strconv.Atoi`), for `token.STRING` the literal text including its
surrounding double quotes, as `go/parser` delivers it. -/
inductive LitKind where
  | int (value : Int)
  | str (value : String)
  | other
deriving DecidableEq

/-- The subset of Go expression ASTs (`ast.Expr`) that `parser.ParseExpr`
can hand to `lower`; `other` stands for every remaining node type. -/
inductive GoExpr where
  | paren (x : GoExpr)
  | binary (op : BinOp) (x y : GoExpr)
  | unary (op : UnOp) (x : GoExpr)
  | basicLit (kind : LitKind)
  | index (x i : GoExpr)
  | selector (x : GoExpr) (sel : String)
  | ident (name : String)
  | call (fn : GoExpr) (args : List GoExpr)
  | other

/-- The `ctx` struct of solver.go, minus the Z3 handles: the memo table of
lowered identifiers, the sort declared for the unknown identifier, and the
resolver callback. The Go map is an association list whose most recent
binding wins. -/
structure Ctx where
  idents : List (String × Z3Value)
  unkTy : Kind
  resolveIdentifier : Resolver

/-- `ctx.resolve` of solver.go: memoized identifier lowering. A known
`int` or `string` becomes a constant and is cached; any other known value
(`bool` included) is rejected with `unsupported type`; an unknown path
becomes a fresh constant of the sort declared for the query identifier. -/
def Ctx.resolve (ctx : Ctx) (fields : List String) : Except SolveErr (Z3Value × Ctx) :=
  let full := String.intercalate "." fields
  match ctx.idents.lookup full with
  | some v => .ok (v, ctx)
  | none =>
    match ctx.resolveIdentifier fields with
    | some (.int n) =>
        let ident := Z3Value.intLit n
        .ok (ident, { ctx with idents := (full, ident) :: ctx.idents })
    | some (.str s) =>
        let ident := Z3Value.strLit s
        .ok (ident, { ctx with idents := (full, ident) :: ctx.idents })
    | some (.bool _) => .error (.badParameter "unsupported type")
    | none =>
        let val := Z3Value.const full ctx.unkTy
        .ok (val, { ctx with idents := (full, val) :: ctx.idents })

/-- `pickType` of solver.go: the common sort kind of two operands, or a
`type mismatch` error. The `ctx` parameter is unused in the source too. -/
def pickType (_ctx : Ctx) (x y : Z3Value) : Except SolveErr Kind :=
  if x.sortOf = y.sortOf then .ok x.sortOf
  else .error (.badParameter "type mismatch")

/-- The operator switch of `lowerBinary` in solver.go, applied after both
operands have been lowered (the two recursive `lower` calls happen at the
call site inside `lower`, so that the recursion stays structural). The
unchecked casts `x.(z3.Int)` and `x.(z3.Bool)` of the ordering and boolean
branches panic on a value of another sort. -/
def lowerBinary (ctx : Ctx) (op : BinOp) (x y : Z3Value) : Except SolveErr (Z3Value × Ctx) :=
  match op with
  | .eql =>
      match pickType ctx x y with
      | .error e => .error e
      | .ok ty =>
        match ty with
        | .int => .ok (.eq x y, ctx)
        | .bool => .ok (.eq x y, ctx)
        | .str => .ok (.eq x y, ctx)
  | .lss =>
      if x.sortOf = .int then
        if y.sortOf = .int then .ok (.lt x y, ctx) else .error .castPanic
      else .error .castPanic
  | .leq =>
      if x.sortOf = .int then
        if y.sortOf = .int then .ok (.le x y, ctx) else .error .castPanic
      else .error .castPanic
  | .gtr =>
      if x.sortOf = .int then
        if y.sortOf = .int then .ok (.gt x y, ctx) else .error .castPanic
      else .error .castPanic
  | .geq =>
      if x.sortOf = .int then
        if y.sortOf = .int then .ok (.ge x y, ctx) else .error .castPanic
      else .error .castPanic
  | .land =>
      if x.sortOf = .bool then
        if y.sortOf = .bool then .ok (.and x y, ctx) else .error .castPanic
      else .error .castPanic
  | .lor =>
      if x.sortOf = .bool then
        if y.sortOf = .bool then .ok (.or x y, ctx) else .error .castPanic
      else .error .castPanic
  | .otherOp _ => .error (.notImplemented "binary op unsupported")

/-- `lowerBasicLit` of solver.go. A string literal's surrounding quotes
are removed by slicing (`node.Value[1 : len(node.Value)-1]`); no escape
processing happens. -/
def lowerBasicLit (ctx : Ctx) (kind : LitKind) : Except SolveErr (Z3Value × Ctx) :=
  match kind with
  | .int n => .ok (.intLit n, ctx)
  | .str s => .ok (.strLit ((s.drop 1).dropRight 1), ctx)
  | .other => .error (.notImplemented "basic lit kind unsupported")

/-- `evaluateSelector` of solver.go: the dotted path of a selector chain,
outermost selector first in the recursion, delivered leftmost segment
first. -/
def evaluateSelector (x : GoExpr) (selName : String) (fields : List String) :
    Except SolveErr (List String) :=
  let fields := selName :: fields
  match x with
  | .selector x2 s2 => evaluateSelector x2 s2 fields
  | .ident name => .ok (name :: fields)
  | _ => .error (.badParameter "unsupported selector type")

/-- `lowerIdent` of solver.go. The reserved identifier `true` lowers to
`FromBool(true)`; the source's `false` branch also returns
`FromBool(true)`. -/
def lowerIdent (ctx : Ctx) (name : String) : Except SolveErr (Z3Value × Ctx) :=
  match name with
  | "true" => .ok (.boolLit true, ctx)
  | "false" => .ok (.boolLit true, ctx)
  | _ => ctx.resolve [name]

/-- `lower` of solver.go, with `lowerUnary`, `lowerSelectorExpr`,
`lowerIndexExpr` and `lowerCallExpr` inlined at their single call sites
(the last two are constant rejections in the source). -/
def lower (ctx : Ctx) : GoExpr → Except SolveErr (Z3Value × Ctx)
  | .paren x => lower ctx x
  | .binary op x y =>
      match lower ctx x with
      | .error e => .error e
      | .ok (xv, ctx1) =>
        match lower ctx1 y with
        | .error e => .error e
        | .ok (yv, ctx2) => lowerBinary ctx2 op xv yv
  | .unary op x =>
      match op with
      | .not =>
        match lower ctx x with
        | .error e => .error e
        | .ok (xv, ctx1) =>
            if xv.sortOf = .bool then .ok (.not xv, ctx1) else .error .castPanic
      | .otherOp _ => .error (.notImplemented "unary op unsupported")
  | .basicLit kind => lowerBasicLit ctx kind
  | .index _ _ => .error (.badParameter "maps are not supported")
  | .selector x selName =>
      match evaluateSelector x selName [] with
      | .error e => .error e
      | .ok fields => ctx.resolve fields
  | .ident name => lowerIdent ctx name
  | .call _ _ => .error (.badParameter "fn calls are not supported")
  | .other => .error (.notImplemented "node type unsupported")

/-- One answer of `ctx.solver.Check()` together with what
`ctx.solver.Model()` would deliver right after it: satisfiable with that
model, unsatisfiable, or an error (as after `Interrupt`). -/
inductive CheckResult where
  | sat (model : Assign)
  | unsat
  | failed

/-- The Z3 backend, abstracted: given the current assertion stack, one
check/model round. -/
structure Oracle where
  check : List Z3Value → CheckResult

/-- A sound backend: whenever it answers satisfiable, the model it hands
out makes every asserted formula evaluate to the boolean `true`. Z3 is
assumed sound in exactly this sense. -/
def Oracle.Sound (o : Oracle) : Prop :=
  ∀ ts σ, o.check ts = .sat σ → ∀ t ∈ ts, t.eval σ = some (.bool true)

/-- The mutable state of the `z3.Solver`: its assertion stack. -/
structure SolverState where
  assertions : List Z3Value
deriving DecidableEq

/-- `solver.Reset()`. -/
def SolverState.reset (_st : SolverState) : SolverState := { assertions := [] }

/-- What one call of `partialSolveForAllImpl` can come to: a value
sequence, an error, or no exit within the given fuel (the source loop has
no bound of its own; the caller imposes a timeout instead). -/
inductive Outcome where
  | ok (values : List GoVal)
  | error (e : SolveErr)
  | diverged
deriving DecidableEq

/-- The enumeration loop of `partialSolveForAllImpl` (solver.go lines
134-162): check satisfiability, read the query identifier's value from the
model, append it, assert the blocking disequality
`ctx.def.Distinct(val, last)`, and repeat until unsatisfiable. The lookup
`ctx.idents[querying]` failing inside the loop yields the NotFound
error. -/
def solveLoop (o : Oracle) (idents : List (String × Z3Value)) (querying : String) :
    Nat → SolverState → List GoVal → Outcome × SolverState
  | 0, st, _ => (.diverged, st)
  | fuel + 1, st, out =>
    match o.check st.assertions with
    | .failed => (.error .checkFailed, st)
    | .unsat => (.ok out, st)
    | .sat model =>
      match idents.lookup querying with
      | none => (.error (.notFound querying), st)
      | some val =>
        let last := modelEval model val
        let neq := Z3Value.distinct val (litOf last)
        solveLoop o idents querying fuel
          { st with assertions := st.assertions ++ [neq] } (out ++ [last])

/-- The sort selected for the unknown identifier by the `switch to`
statement of `partialSolveForAllImpl`; `none` is the `default` branch. -/
def toKind (toTy : Int) : Option Kind :=
  if toTy = TypeInt then some .int
  else if toTy = TypeBool then some .bool
  else if toTy = TypeString then some .str
  else none

/-- The body of `partialSolveForAllImpl` after the parse step, i.e. the
region guarded by `defer ctx.solver.Reset()`: pick the query sort, lower,
assert `cond.(z3.Bool)`, and run the enumeration loop. -/
def implBody (astE : GoExpr) (resolveIdentifier : Resolver) (querying : String)
    (toTy : Int) (o : Oracle) (fuel : Nat) (st : SolverState) : Outcome × SolverState :=
  match toKind toTy with
  | none => (.error (.badParameter "unsupported output type"), st)
  | some ty =>
    let ctx0 : Ctx := { idents := [], unkTy := ty, resolveIdentifier := resolveIdentifier }
    match lower ctx0 astE with
    | .error e => (.error e, st)
    | .ok (cond, ctx1) =>
      if cond.sortOf = .bool then
        solveLoop o ctx1.idents querying fuel
          { st with assertions := st.assertions ++ [cond] } []
      else (.error .castPanic, st)

/-- `partialSolveForAllImpl` of solver.go. `parsed` is the outcome of
`parser.ParseExpr(predicate)` (the Go standard library's parser, external
to this code): a parse error returns before the deferred `Reset` is even
registered, leaving the solver state untouched; on every later exit path
the deferred `Reset` empties the assertion stack. -/
def partialSolveForAllImpl (parsed : Except String GoExpr) (resolveIdentifier : Resolver)
    (querying : String) (toTy : Int) (o : Oracle) (fuel : Nat) (st : SolverState) :
    Outcome × SolverState :=
  match parsed with
  | .error msg => (.error (.parseError msg), st)
  | .ok astE =>
    let result := implBody astE resolveIdentifier querying toTy o fuel st
    (result.1, result.2.reset)

/-- Modelled from the spec: direct evaluation of a predicate expression
(section 4.1-4.3 read as an interpreter), the reference semantics of the
soundness property of section 8. `env` supplies the substituted values:
the resolver-known identifiers plus the query identifier bound to a
candidate value. `true` and `false` are boolean literals, equality
requires both operands in the same scalar variant, ordering is over
integers, the connectives over booleans. -/
def directEval (env : List String → Option GoVal) : GoExpr → Option GoVal
  | .paren x => directEval env x
  | .basicLit (.int n) => some (.int n)
  | .basicLit (.str s) => some (.str ((s.drop 1).dropRight 1))
  | .basicLit .other => none
  | .ident name =>
      match name with
      | "true" => some (.bool true)
      | "false" => some (.bool false)
      | _ => env [name]
  | .selector x selName =>
      match evaluateSelector x selName [] with
      | .ok fields => env fields
      | .error _ => none
  | .unary op x =>
      match op with
      | .not =>
        match directEval env x with
        | some (.bool b) => some (.bool (!b))
        | _ => none
      | .otherOp _ => none
  | .binary op x y =>
      match directEval env x, directEval env y with
      | some a, some b =>
        match op with
        | .eql => if a.kind = b.kind then some (.bool (decide (a = b))) else none
        | .lss =>
          match a, b with
          | .int i, .int j => some (.bool (decide (i < j)))
          | _, _ => none
        | .leq =>
          match a, b with
          | .int i, .int j => some (.bool (decide (i ≤ j)))
          | _, _ => none
        | .gtr =>
          match a, b with
          | .int i, .int j => some (.bool (decide (j < i)))
          | _, _ => none
        | .geq =>
          match a, b with
          | .int i, .int j => some (.bool (decide (j ≤ i)))
          | _, _ => none
        | .land =>
          match a, b with
          | .bool i, .bool j => some (.bool (i && j))
          | _, _ => none
        | .lor =>
          match a, b with
          | .bool i, .bool j => some (.bool (i || j))
          | _, _ => none
        | .otherOp _ => none
      | _, _ => none
  | .index _ _ => none
  | .call _ _ => none
  | .other => none

/-! The boolean-only DPLL solver sketch of the same package. -/

/-- The result codes of `evalClause`: the `dpllSatisfied` constant. -/
def dpllSatisfied : Nat := 0

/-- `dpllUnsatisfied`. -/
def dpllUnsatisfied : Nat := 1

/-- `dpllUnknown`. -/
def dpllUnknown : Nat := 2

/-- The clause AST of the DPLL file (`nodeLiteral`, `nodeIdentifier`,
`nodeNot`, `nodeOr`, `nodeAnd`). -/
inductive Node where
  | literal (value : Bool)
  | identifier (key : String)
  | not (left : Node)
  | or (left right : Node)
  | and (left right : Node)
deriving DecidableEq

/-- The `assignment` struct. -/
structure Assignment where
  key : String
  value : Bool
deriving DecidableEq

/-- The `state` struct of the DPLL file; the watched-literal map is an
association list. -/
structure State where
  clauses : List Node
  assignments : List Assignment
  watched : List (String × List Node)
  enforce : List Node
  uprop : List Node
deriving DecidableEq

/-- `pickLiteral` of the DPLL file. The Go version returns a `*string`
into the clause (here the inner `Option String`) and takes a closure that
may dereference a nil pointer when invoked; a closure answer of `none`
models that panic, and an outer `none` result models the panic propagating
out of `pickLiteral`. The Go `or` helper evaluates both recursive calls
before choosing, so a panic on either side propagates. -/
def pickLiteral (n : Node) (isExcluded : String → Option Bool) : Option (Option String) :=
  match n with
  | .literal _ => some none
  | .identifier key =>
      match isExcluded key with
      | none => none
      | some true => some none
      | some false => some (some key)
  | .not left => pickLiteral left isExcluded
  | .or left right =>
      match pickLiteral left isExcluded, pickLiteral right isExcluded with
      | none, _ => none
      | _, none => none
      | some (some k), some _ => some (some k)
      | some none, some r => some r
  | .and left right =>
      match pickLiteral left isExcluded, pickLiteral right isExcluded with
      | none, _ => none
      | _, none => none
      | some (some k), some _ => some (some k)
      | some none, some r => some r

/-- `newState` of the DPLL file, over its single clause (CNF conversion is
a todo in the source). `a` is picked with a never-excluding closure; when
`a` is non-nil the clause goes to `enforce`. Otherwise the closure for `b`
reads `*a` with `a` nil when invoked (modelled `fun _ => none`), and the
final loop over `[]string{*a, *b}` dereferences the nil `a`, so the
constructor panics (modelled `none`). -/
def newState (clause : Node) : Option State :=
  let a := pickLiteral clause (fun _ => some false)
  match a with
  | none => none
  | some (some _) =>
      some { clauses := [clause], assignments := [], watched := [],
             enforce := [clause], uprop := [] }
  | some none =>
      let b := pickLiteral clause (fun _ => none)
      match b with
      | none => none
      | some (some _) =>
          some { clauses := [clause], assignments := [], watched := [],
                 enforce := [], uprop := [clause] }
      | some none => none

/-- `evalClause` of the DPLL file: the source body is the single statement
`return dpllUnknown`. -/
def evalClause (_state : State) (_clause : Node) : Nat := dpllUnknown

/-- `isAssigned` of the DPLL file: the first assignment for `key`, as a
(found, value) pair. -/
def isAssigned (state : State) (key : String) : Bool × Bool :=
  match state.assignments.find? (fun a => a.key == key) with
  | some a => (true, a.value)
  | none => (false, false)

/-- Modelled from the spec: standard three-valued clause evaluation
(section 4.5): `satisfied` if any literal matches its assigned polarity,
`unsatisfied` if every literal is assigned and none matches, `unknown`
otherwise; constants and the connectives evaluate by strong Kleene
logic. -/
def evalClauseSpec (state : State) : Node → Nat
  | .literal value => if value then dpllSatisfied else dpllUnsatisfied
  | .identifier key =>
      match isAssigned state key with
      | (true, v) => if v then dpllSatisfied else dpllUnsatisfied
      | (false, _) => dpllUnknown
  | .not left =>
      let r := evalClauseSpec state left
      if r = dpllSatisfied then dpllUnsatisfied
      else if r = dpllUnsatisfied then dpllSatisfied
      else dpllUnknown
  | .or left right =>
      let a := evalClauseSpec state left
      let b := evalClauseSpec state right
      if a = dpllSatisfied ∨ b = dpllSatisfied then dpllSatisfied
      else if a = dpllUnsatisfied ∧ b = dpllUnsatisfied then dpllUnsatisfied
      else dpllUnknown
  | .and left right =>
      let a := evalClauseSpec state left
      let b := evalClauseSpec state right
      if a = dpllUnsatisfied ∨ b = dpllUnsatisfied then dpllUnsatisfied
      else if a = dpllSatisfied ∧ b = dpllSatisfied then dpllSatisfied
      else dpllUnknown

/-- The first identifier key of a clause in scan order: what a
never-excluding `pickLiteral` finds. -/
def firstIdent : Node → Option String
  | .literal _ => none
  | .identifier key => some key
  | .not left => firstIdent left
  | .or left right =>
      match firstIdent left with
      | some k => some k
      | none => firstIdent right
  | .and left right =>
      match firstIdent left with
      | some k => some k
      | none => firstIdent right

/-! Helper lemmas shared by the claim theorems. -/

/-- The constant handed back by `model.Eval` evaluates to its own value
under every assignment. -/
theorem eval_litOf (σ : Assign) (v : GoVal) : (litOf v).eval σ = some v := by
  cases v <;> rfl

/-- A backend that answers with a fixed assignment after checking it
against every asserted formula; its satisfiable answers are checked, so it
is sound. -/
def checkBySigma (σ0 : Assign) : Oracle :=
  ⟨fun ts => if ∀ t ∈ ts, t.eval σ0 = some (GoVal.bool true) then .sat σ0 else .unsat⟩

theorem checkBySigma_sound (σ0 : Assign) : (checkBySigma σ0).Sound := by
  intro ts σ h t ht
  have h2 : (if ∀ t ∈ ts, Z3Value.eval σ0 t = some (GoVal.bool true)
      then CheckResult.sat σ0 else CheckResult.unsat) = CheckResult.sat σ := h
  by_cases hall : ∀ t ∈ ts, Z3Value.eval σ0 t = some (GoVal.bool true)
  · rw [if_pos hall] at h2
    injection h2 with h3
    subst h3
    exact hall t ht
  · rw [if_neg hall] at h2
    exact CheckResult.noConfusion h2

/-- Once the query identifier has a lowered entry, the enumeration loop
can never answer NotFound. -/
theorem solveLoop_no_notFound (o : Oracle) (idents : List (String × Z3Value))
    (q : String) (val : Z3Value) (hval : idents.lookup q = some val) :
    ∀ fuel st out msg, (solveLoop o idents q fuel st out).1 ≠ .error (.notFound msg) := by
  intro fuel
  induction fuel with
  | zero => intro st out msg h; simp [solveLoop] at h
  | succ n ih =>
    intro st out msg h
    simp only [solveLoop] at h
    cases hc : o.check st.assertions with
    | failed => rw [hc] at h; simp at h
    | unsat => rw [hc] at h; simp at h
    | sat σ =>
      rw [hc, hval] at h
      simp only at h
      exact ih _ _ _ h

/-- With no lowered entry for the query identifier, the loop can only
stop successfully with its accumulator unchanged (at the first
unsatisfiable answer). -/
theorem solveLoop_none_ok (o : Oracle) (idents : List (String × Z3Value))
    (q : String) (hnone : idents.lookup q = none) :
    ∀ fuel st out res, (solveLoop o idents q fuel st out).1 = .ok res → res = out := by
  intro fuel st out res h
  cases fuel with
  | zero => simp [solveLoop] at h
  | succ n =>
    simp only [solveLoop] at h
    cases hc : o.check st.assertions with
    | failed => rw [hc] at h; simp at h
    | unsat => rw [hc] at h; simp at h; exact h.symm
    | sat σ => rw [hc, hnone] at h; simp at h

/-- The blocking-clause invariant of the enumeration loop: if every value
already collected has its disequality on the assertion stack and the
collected values are distinct, a sound backend can only let the loop
finish with a duplicate-free sequence. -/
theorem solveLoop_nodup_aux (o : Oracle) (idents : List (String × Z3Value))
    (q : String) (val : Z3Value) (hsound : o.Sound)
    (hval : idents.lookup q = some val) :
    ∀ fuel st out res,
      (∀ v ∈ out, Z3Value.distinct val (litOf v) ∈ st.assertions) →
      out.Nodup →
      (solveLoop o idents q fuel st out).1 = .ok res → res.Nodup := by
  intro fuel
  induction fuel with
  | zero => intro st out res _ _ h; simp [solveLoop] at h
  | succ n ih =>
    intro st out res hblock hnodup h
    simp only [solveLoop] at h
    cases hc : o.check st.assertions with
    | failed => rw [hc] at h; simp at h
    | unsat =>
      rw [hc] at h
      simp at h
      exact h ▸ hnodup
    | sat σ =>
      rw [hc, hval] at h
      simp only at h
      have hlast : ∀ v ∈ out, modelEval σ val ≠ v := by
        intro v hv heq
        have htrue := hsound _ _ hc _ (hblock v hv)
        simp only [Z3Value.eval, eval_litOf] at htrue
        cases hv2 : val.eval σ with
        | none => rw [hv2] at htrue; simp at htrue
        | some a =>
          rw [hv2] at htrue
          simp only [Option.some.injEq] at htrue
          have hne : a ≠ v := by
            intro hav
            rw [hav] at htrue
            simp at htrue
          apply hne
          have ha : modelEval σ val = a := by simp [modelEval, hv2]
          rw [← ha]
          exact heq
      refine ih _ _ _ ?_ ?_ h
      · intro v hv
        rcases List.mem_append.1 hv with h1 | h1
        · exact List.mem_append_left _ (hblock v h1)
        · rw [List.mem_singleton] at h1
          subst h1
          exact List.mem_append_right _ (List.mem_singleton_self _)
      · rw [List.nodup_append]
        refine ⟨hnodup, List.nodup_singleton _, ?_⟩
        intro v hv hv2
        rw [List.mem_singleton] at hv2
        exact hlast v hv hv2.symm

/-! Concrete inputs used by the claim theorems. -/

/-- A resolver knowing nothing: every identifier is unknown. -/
def resolverNone : Resolver := fun _ => none

/-- The predicate `a == 1 && false`. -/
def predC1 : GoExpr :=
  .binary .land (.binary .eql (.ident "a") (.basicLit (.int 1))) (.ident "false")

/-- The assignment giving every constant the integer 1. -/
def sigmaC1 : Assign := fun _ => GoVal.int 1

/-- A sound backend for the run on `predC1`. -/
def oracleC1 : Oracle := checkBySigma sigmaC1

/-- C1: soundness of the enumeration fails on the code. With the predicate
`a == 1 && false`, query identifier `a` of Int sort and a resolver knowing
nothing, `partialSolveForAllImpl` under a sound backend returns the value
1 — because `lowerIdent` lowers the literal `false` to the Z3 constant
true — yet substituting `a = 1` into the original predicate and evaluating
it directly yields false, not true as the claim requires. -/
theorem c1_soundness_code_bug :
    partialSolveForAllImpl (.ok predC1) resolverNone "a" TypeInt oracleC1 2 ⟨[]⟩
      = (.ok [GoVal.int 1], ⟨[]⟩)
    ∧ oracleC1.Sound
    ∧ directEval (fun fs => if fs = ["a"] then some (GoVal.int 1) else none) predC1
      = some (GoVal.bool false) := by
  refine ⟨by decide, checkBySigma_sound sigmaC1, by decide⟩

/-- A context with nothing lowered, query sort Int and an all-unknown
resolver. -/
def ctxC2 : Ctx := { idents := [], unkTy := Kind.int, resolveIdentifier := resolverNone }

/-- C2: the reserved identifier `true` lowers to the boolean constant
true, but the identifier `false` ALSO lowers to the boolean constant true:
the `false` branch of `lowerIdent` returns `FromBool(true)`, contradicting
the claim that `false` lowers to its own truth value. -/
theorem c2_false_lowers_to_true :
    lowerIdent ctxC2 "true" = .ok (Z3Value.boolLit true, ctxC2)
    ∧ lowerIdent ctxC2 "false" = .ok (Z3Value.boolLit true, ctxC2) :=
  ⟨rfl, rfl⟩

/-- A resolver that knows the value 5 for the path `a`. -/
def resolverC3 : Resolver := fun fields => if fields = ["a"] then some (GoVal.int 5) else none

/-- A context whose resolver knows the query path `a`, declared query sort
Int. -/
def ctxC3 : Ctx := { idents := [], unkTy := Kind.int, resolveIdentifier := resolverC3 }

/-- C3 counterexample: the query identifier is NOT always treated as
unknown. With the resolver knowing `a = 5` and the caller-declared query
sort Int, lowering the query identifier `a` produces the integer constant
5 — not the free constant of the query sort the claim promises. -/
theorem c3_query_becomes_constant_counterexample :
    lower ctxC3 (GoExpr.ident "a")
      = .ok (Z3Value.intLit 5, { ctxC3 with idents := [("a", Z3Value.intLit 5)] })
    ∧ Z3Value.intLit 5 ≠ Z3Value.const "a" Kind.int :=
  ⟨rfl, by decide⟩

/-- C3 amended: the query path is bound to a fresh free constant of the
declared query sort only when the resolver reports it unknown; when the
resolver returns a known int value for the query path, it is lowered to
that constant like any other known identifier. -/
theorem c3_amended (ctx : Ctx) (fields : List String)
    (hcache : ctx.idents.lookup (String.intercalate "." fields) = none) :
    (∀ n, ctx.resolveIdentifier fields = some (GoVal.int n) →
       Ctx.resolve ctx fields
         = .ok (Z3Value.intLit n,
             { ctx with idents :=
                 (String.intercalate "." fields, Z3Value.intLit n) :: ctx.idents }))
    ∧ (ctx.resolveIdentifier fields = none →
       Ctx.resolve ctx fields
         = .ok (Z3Value.const (String.intercalate "." fields) ctx.unkTy,
             { ctx with idents :=
                 (String.intercalate "." fields,
                  Z3Value.const (String.intercalate "." fields) ctx.unkTy) :: ctx.idents })) := by
  constructor
  · intro n hres
    simp [Ctx.resolve, hcache, hres]
  · intro hres
    simp [Ctx.resolve, hcache, hres]

theorem c3_amended_witness :
    Ctx.resolve ctxC3 ["a"]
      = .ok (Z3Value.intLit 5, { ctxC3 with idents := [("a", Z3Value.intLit 5)] })
    ∧ Ctx.resolve ctxC2 ["a"]
      = .ok (Z3Value.const "a" Kind.int,
          { ctxC2 with idents := [("a", Z3Value.const "a" Kind.int)] }) :=
  ⟨(c3_amended ctxC3 ["a"] rfl).1 5 rfl, (c3_amended ctxC2 ["a"] rfl).2 rfl⟩

/-- The predicate `x == 1 && x == 2`, unsatisfiable and never mentioning
the query path `q`. -/
def predC4 : GoExpr :=
  .binary .land (.binary .eql (.ident "x") (.basicLit (.int 1)))
                (.binary .eql (.ident "x") (.basicLit (.int 2)))

/-- A backend answering unsatisfiable; vacuously sound, and the correct
answer for the genuinely unsatisfiable `predC4`. -/
def oracleUnsat : Oracle := ⟨fun _ => .unsat⟩

/-- C4 counterexample: a vacuous query does NOT always yield NotFound.
The query path `q` never appears in `x == 1 && x == 2`; the formula is
unsatisfiable, so the first check answers unsat and the call returns an
empty value sequence with no error — the NotFound check is only reached
after a satisfiable answer. -/
theorem c4_notfound_counterexample :
    partialSolveForAllImpl (.ok predC4) resolverNone "q" TypeInt oracleUnsat 1 ⟨[]⟩
      = (.ok [], ⟨[]⟩)
    ∧ oracleUnsat.Sound := by
  refine ⟨by decide, ?_⟩
  intro ts σ h t ht
  simp [oracleUnsat] at h

/-- C4 amended: NotFound is returned exactly on a satisfiable check with
the query path absent from the lowered identifiers: if the first check
answers satisfiable and the query path was never lowered, the call returns
NotFound; if the first check answers unsatisfiable, the call returns an
empty sequence with no error even when the query is vacuous; and when the
query path appears among the lowered identifiers, NotFound is never
returned. -/
theorem c4_amended (astE : GoExpr) (resolver : Resolver) (querying : String) (toTy : Int)
    (ty : Kind) (o : Oracle) (fuel : Nat) (st : SolverState) (cond : Z3Value) (ctx1 : Ctx)
    (hty : toKind toTy = some ty)
    (hlow : lower { idents := [], unkTy := ty, resolveIdentifier := resolver } astE
      = .ok (cond, ctx1))
    (hbool : cond.sortOf = .bool) :
    (ctx1.idents.lookup querying = none →
       ((∃ σ, o.check (st.assertions ++ [cond]) = .sat σ) →
          (partialSolveForAllImpl (.ok astE) resolver querying toTy o (fuel + 1) st).1
            = .error (.notFound querying))
       ∧ (o.check (st.assertions ++ [cond]) = .unsat →
          (partialSolveForAllImpl (.ok astE) resolver querying toTy o (fuel + 1) st).1
            = .ok []))
    ∧ (∀ val, ctx1.idents.lookup querying = some val →
        ∀ f msg, (partialSolveForAllImpl (.ok astE) resolver querying toTy o f st).1
          ≠ .error (.notFound msg)) := by
  have himpl : ∀ f, (partialSolveForAllImpl (.ok astE) resolver querying toTy o f st).1
      = (solveLoop o ctx1.idents querying f
          { st with assertions := st.assertions ++ [cond] } []).1 := by
    intro f
    simp [partialSolveForAllImpl, implBody, hty, hlow, hbool]
  constructor
  · intro hnone
    constructor
    · rintro ⟨σ, hsat⟩
      rw [himpl]
      simp only [solveLoop]
      rw [hsat, hnone]
    · intro hunsat
      rw [himpl]
      simp only [solveLoop]
      rw [hunsat]
  · intro val hval f msg
    rw [himpl]
    exact solveLoop_no_notFound o ctx1.idents querying val hval f _ [] msg

/-- The predicate `x == 1`, satisfiable, mentioning only `x`. -/
def predC4b : GoExpr := .binary .eql (.ident "x") (.basicLit (.int 1))

/-- What lowering `predC4b` produces. -/
def condC4b : Z3Value := .eq (.const "x" Kind.int) (.intLit 1)

/-- The lowering context after `predC4b`. -/
def ctx1C4b : Ctx :=
  { idents := [("x", Z3Value.const "x" Kind.int)], unkTy := Kind.int,
    resolveIdentifier := resolverNone }

/-- A backend that always answers satisfiable with an all-1 model. -/
def oracleSatAll : Oracle := ⟨fun _ => .sat (fun _ => GoVal.int 1)⟩

theorem c4_amended_witness :
    (partialSolveForAllImpl (.ok predC4b) resolverNone "q" TypeInt oracleSatAll 1 ⟨[]⟩).1
      = .error (.notFound "q")
    ∧ (partialSolveForAllImpl (.ok predC4b) resolverNone "q" TypeInt oracleUnsat 1 ⟨[]⟩).1
      = .ok []
    ∧ (partialSolveForAllImpl (.ok predC4b) resolverNone "x" TypeInt oracleSatAll 3 ⟨[]⟩).1
      ≠ .error (.notFound "x") :=
  ⟨((c4_amended predC4b resolverNone "q" TypeInt Kind.int oracleSatAll 0 ⟨[]⟩
      condC4b ctx1C4b rfl rfl rfl).1 rfl).1 ⟨fun _ => GoVal.int 1, rfl⟩,
   ((c4_amended predC4b resolverNone "q" TypeInt Kind.int oracleUnsat 0 ⟨[]⟩
      condC4b ctx1C4b rfl rfl rfl).1 rfl).2 rfl,
   (c4_amended predC4b resolverNone "x" TypeInt Kind.int oracleSatAll 0 ⟨[]⟩
      condC4b ctx1C4b rfl rfl rfl).2 (Z3Value.const "x" Kind.int) rfl 3 "x"⟩

/-- C5: atomic reset on every exit. Starting from an empty assertion
stack, every exit path of `partialSolveForAllImpl` — success, any error
(parse, unsupported type, lowering, not-found), an interrupted check, or
running out of fuel — leaves the assertion stack empty, so a subsequent
unrelated call on the same Solver instance starts from an empty stack: the
deferred `Reset` covers every path after parsing, and the parse-error path
returns before anything was asserted. -/
theorem c5_reset_on_every_exit (parsed : Except String GoExpr) (resolver : Resolver)
    (querying : String) (toTy : Int) (o : Oracle) (fuel : Nat) (st : SolverState)
    (h : st.assertions = []) :
    ((partialSolveForAllImpl parsed resolver querying toTy o fuel st).2).assertions = [] := by
  cases parsed with
  | error msg => simpa [partialSolveForAllImpl] using h
  | ok astE => simp [partialSolveForAllImpl, SolverState.reset]

theorem c5_reset_witness :
    ((partialSolveForAllImpl (.error "1 +") resolverNone "a" TypeInt oracleC1 0
        ⟨[]⟩).2).assertions = []
    ∧ ((partialSolveForAllImpl (.ok predC1) resolverNone "a" TypeInt oracleC1 2
        ⟨[]⟩).2).assertions = [] :=
  ⟨c5_reset_on_every_exit (.error "1 +") resolverNone "a" TypeInt oracleC1 0 ⟨[]⟩ rfl,
   c5_reset_on_every_exit (.ok predC1) resolverNone "a" TypeInt oracleC1 2 ⟨[]⟩ rfl⟩

/-- A context with query sort Int and an all-unknown resolver, for the
non-query identifier `b`. -/
def ctxC6 : Ctx := { idents := [], unkTy := Kind.int, resolveIdentifier := resolverNone }

/-- C6 counterexample: no sort inference happens for non-query unknowns.
With declared query sort Int, the resolver-unknown identifier `b` is
created with sort Int — the query's declared sort — and lowering
`b == "x"`, where the context requires a string, fails with the type
mismatch instead of giving `b` an inferred String sort. -/
theorem c6_no_sort_inference_counterexample :
    Ctx.resolve ctxC6 ["b"]
      = .ok (Z3Value.const "b" Kind.int,
          { ctxC6 with idents := [("b", Z3Value.const "b" Kind.int)] })
    ∧ lower ctxC6 (GoExpr.binary .eql (.ident "b") (.basicLit (.str "\"x\"")))
      = .error (.badParameter "type mismatch") :=
  ⟨rfl, rfl⟩

/-- C6 amended: every identifier the resolver reports unknown — query or
not — becomes a fresh constant of the caller-declared query sort; no sort
is inferred from the operator context and no TypeError is raised at
variable creation (sort mismatches only surface later at the enclosing
operator). -/
theorem c6_amended (ctx : Ctx) (fields : List String)
    (hcache : ctx.idents.lookup (String.intercalate "." fields) = none)
    (hres : ctx.resolveIdentifier fields = none) :
    Ctx.resolve ctx fields
      = .ok (Z3Value.const (String.intercalate "." fields) ctx.unkTy,
          { ctx with idents :=
              (String.intercalate "." fields,
               Z3Value.const (String.intercalate "." fields) ctx.unkTy) :: ctx.idents }) := by
  simp [Ctx.resolve, hcache, hres]

theorem c6_amended_witness :
    Ctx.resolve ctxC6 ["b"]
      = .ok (Z3Value.const "b" Kind.int,
          { ctxC6 with idents := [("b", Z3Value.const "b" Kind.int)] }) :=
  c6_amended ctxC6 ["b"] rfl rfl

/-- A resolver that knows the boolean value true for the path `a`. -/
def resolverC7 : Resolver :=
  fun fields => if fields = ["a"] then some (GoVal.bool true) else none

/-- A context whose resolver knows a boolean for `a`. -/
def ctxC7 : Ctx := { idents := [], unkTy := Kind.int, resolveIdentifier := resolverC7 }

/-- C7 counterexample: a known boolean value does not lower to a Bool
constant. The resolver reports `a` known with the boolean true, and
`ctx.resolve` fails with the `unsupported type` BadParameter error: the
switch in the source handles only `int` and `string`. -/
theorem c7_known_bool_counterexample :
    Ctx.resolve ctxC7 ["a"] = .error (.badParameter "unsupported type") :=
  rfl

/-- C7 amended: known int values lower to Int constants and known string
values to String constants, each cached; a known bool value (like any
other unhandled type) makes lowering fail with the `unsupported type`
BadParameter error instead of producing a Bool constant. -/
theorem c7_amended (ctx : Ctx) (fields : List String)
    (hcache : ctx.idents.lookup (String.intercalate "." fields) = none) :
    (∀ n, ctx.resolveIdentifier fields = some (GoVal.int n) →
       Ctx.resolve ctx fields
         = .ok (Z3Value.intLit n,
             { ctx with idents :=
                 (String.intercalate "." fields, Z3Value.intLit n) :: ctx.idents }))
    ∧ (∀ s, ctx.resolveIdentifier fields = some (GoVal.str s) →
       Ctx.resolve ctx fields
         = .ok (Z3Value.strLit s,
             { ctx with idents :=
                 (String.intercalate "." fields, Z3Value.strLit s) :: ctx.idents }))
    ∧ (∀ b, ctx.resolveIdentifier fields = some (GoVal.bool b) →
       Ctx.resolve ctx fields = .error (.badParameter "unsupported type")) := by
  refine ⟨?_, ?_, ?_⟩
  · intro n hres
    simp [Ctx.resolve, hcache, hres]
  · intro s hres
    simp [Ctx.resolve, hcache, hres]
  · intro b hres
    simp [Ctx.resolve, hcache, hres]

/-- A resolver that knows the string value `x` for the path `s`. -/
def resolverC7s : Resolver :=
  fun fields => if fields = ["s"] then some (GoVal.str "x") else none

theorem c7_amended_witness :
    Ctx.resolve ctxC3 ["a"]
      = .ok (Z3Value.intLit 5, { ctxC3 with idents := [("a", Z3Value.intLit 5)] })
    ∧ Ctx.resolve { idents := [], unkTy := Kind.int, resolveIdentifier := resolverC7s } ["s"]
      = .ok (Z3Value.strLit "x",
          { idents := [("s", Z3Value.strLit "x")], unkTy := Kind.int,
            resolveIdentifier := resolverC7s })
    ∧ Ctx.resolve ctxC7 ["a"] = .error (.badParameter "unsupported type") :=
  ⟨(c7_amended ctxC3 ["a"] rfl).1 5 rfl,
   (c7_amended { idents := [], unkTy := Kind.int, resolveIdentifier := resolverC7s }
      ["s"] rfl).2.1 "x" rfl,
   (c7_amended ctxC7 ["a"] rfl).2.2 true rfl⟩

/-- C8: no duplicates in the enumeration. Under a sound backend, whenever
`partialSolveForAllImpl` returns a value sequence, that sequence has no
repeated value: after each extracted model, the blocking disequality
`Distinct(val, last)` is asserted before the next check, so every later
model must bind the query identifier to a fresh value. -/
theorem c8_no_duplicates (parsed : Except String GoExpr) (resolver : Resolver)
    (querying : String) (toTy : Int) (o : Oracle) (fuel : Nat) (st : SolverState)
    (res : List GoVal) (hsound : o.Sound)
    (hok : (partialSolveForAllImpl parsed resolver querying toTy o fuel st).1 = .ok res) :
    res.Nodup := by
  cases parsed with
  | error msg => simp [partialSolveForAllImpl] at hok
  | ok astE =>
    simp only [partialSolveForAllImpl] at hok
    unfold implBody at hok
    cases htk : toKind toTy with
    | none => rw [htk] at hok; simp at hok
    | some ty =>
      rw [htk] at hok
      simp only at hok
      cases hlow : lower { idents := [], unkTy := ty, resolveIdentifier := resolver } astE with
      | error e => rw [hlow] at hok; simp at hok
      | ok p =>
        obtain ⟨cond, ctx1⟩ := p
        rw [hlow] at hok
        simp only at hok
        by_cases hb : cond.sortOf = .bool
        · rw [if_pos hb] at hok
          cases hv : ctx1.idents.lookup querying with
          | some val =>
            exact solveLoop_nodup_aux o ctx1.idents querying val hsound hv fuel _ [] res
              (by simp) List.nodup_nil hok
          | none =>
            rw [solveLoop_none_ok o ctx1.idents querying hv fuel _ [] res hok]
            exact List.nodup_nil
        · rw [if_neg hb] at hok
          simp at hok

/-- The predicate `a == 7`. -/
def predC8 : GoExpr := .binary .eql (.ident "a") (.basicLit (.int 7))

/-- The assignment giving every constant the integer 7. -/
def sigmaC8 : Assign := fun _ => GoVal.int 7

/-- A sound backend for the run on `predC8`. -/
def oracleC8 : Oracle := checkBySigma sigmaC8

theorem c8_no_duplicates_witness : ([GoVal.int 7] : List GoVal).Nodup :=
  c8_no_duplicates (.ok predC8) resolverNone "a" TypeInt oracleC8 2 ⟨[]⟩ [GoVal.int 7]
    (checkBySigma_sound sigmaC8) (by decide)

/-- A DPLL state whose single clause is the identifier `a`, with `a`
assigned true. -/
def stateC9 : State :=
  { clauses := [Node.identifier "a"], assignments := [{ key := "a", value := true }],
    watched := [], enforce := [], uprop := [] }

/-- C9: `evalClause` is a stub. On a state assigning `a := true` and the
clause consisting of the literal `a` — which standard three-valued clause
evaluation, as the spec requires, classifies as satisfied — the source's
`evalClause` still answers `dpllUnknown`: its body is the single statement
`return dpllUnknown`, regardless of state and clause. -/
theorem c9_evalclause_stub :
    evalClause stateC9 (Node.identifier "a") = dpllUnknown
    ∧ evalClauseSpec stateC9 (Node.identifier "a") = dpllSatisfied :=
  ⟨rfl, rfl⟩

/-- C10 counterexample: `newState` is not total. On the clause consisting
of the single constant literal `true` — no identifier anywhere — both
literal picks come back nil and the loop over `[]string{*a, *b}`
dereferences the nil pointer `a`: the constructor panics (modelled `none`)
instead of returning a classified state. -/
theorem c10_newstate_counterexample :
    newState (Node.literal true) = none ∧ newState (Node.identifier "a") ≠ none :=
  ⟨rfl, by decide⟩

/-- `pickLiteral` with the never-excluding closure finds exactly the first
identifier of the clause. -/
theorem pickLiteral_total (clause : Node) :
    pickLiteral clause (fun _ => some false) = some (firstIdent clause) := by
  induction clause with
  | literal v => rfl
  | identifier k => rfl
  | not l ihl => simpa [pickLiteral, firstIdent] using ihl
  | or l r ihl ihr =>
    rw [pickLiteral, ihl, ihr, firstIdent]
    cases firstIdent l <;> rfl
  | and l r ihl ihr =>
    rw [pickLiteral, ihl, ihr, firstIdent]
    cases firstIdent l <;> rfl

/-- On a clause with no identifier, `pickLiteral` never invokes its
closure, so even the nil-dereferencing closure returns nil without
panicking. -/
theorem pickLiteral_panic_closure (clause : Node) (h : firstIdent clause = none) :
    pickLiteral clause (fun _ => none) = some none := by
  induction clause with
  | literal v => rfl
  | identifier k => exact absurd h (by simp [firstIdent])
  | not l ihl => exact ihl h
  | or l r ihl ihr =>
    rw [firstIdent] at h
    cases hl : firstIdent l with
    | some k => rw [hl] at h; exact Option.noConfusion h
    | none =>
      rw [hl] at h
      rw [pickLiteral, ihl hl, ihr h]
  | and l r ihl ihr =>
    rw [firstIdent] at h
    cases hl : firstIdent l with
    | some k => rw [hl] at h; exact Option.noConfusion h
    | none =>
      rw [hl] at h
      rw [pickLiteral, ihl hl, ihr h]

/-- C10 amended: `newState` returns normally exactly when the clause
contains at least one identifier, and then files the whole clause under
`enforce` (the watched/uprop machinery is never reached); on a clause
built only from constant boolean literals it dereferences a nil literal
pointer and panics. -/
theorem c10_amended (clause : Node) :
    (∀ k, firstIdent clause = some k →
       newState clause
         = some { clauses := [clause], assignments := [], watched := [],
                  enforce := [clause], uprop := [] })
    ∧ (firstIdent clause = none → newState clause = none) := by
  constructor
  · intro k hk
    simp [newState, pickLiteral_total, hk]
  · intro h0
    simp [newState, pickLiteral_total, pickLiteral_panic_closure clause h0, h0]

theorem c10_amended_witness :
    newState (Node.or (Node.literal false) (Node.identifier "x"))
      = some { clauses := [Node.or (Node.literal false) (Node.identifier "x")],
               assignments := [], watched := [],
               enforce := [Node.or (Node.literal false) (Node.identifier "x")], uprop := [] }
    ∧ newState (Node.and (Node.literal true) (Node.literal false)) = none :=
  ⟨(c10_amended (Node.or (Node.literal false) (Node.identifier "x"))).1 "x" rfl,
   (c10_amended (Node.and (Node.literal true) (Node.literal false))).2 rfl⟩

end Predicate

